import Mathlib

/-!
Verification development for the action-execution REST controller
(`st2api/st2api/controllers/actionexecutions.py`).

The controller is embedded shallowly: its pure logic (context extraction,
parameter defaulting, validation dispatch, status assignment, the `put`
overwrite logic, the listing re-sort) is translated directly from the
source.  External collaborators that the repository does not ship in the
given sources (the persistence layer `ActionExecution.*`, the API
serializers `to_model` / `from_model`, `update_actionexecution_status`,
the action/runner registries, `jsonschema.validate`, `json.loads`) are
modelled from the specification and marked as such in their doc comments.
-/

namespace St2

/-- JSON-style scalar values, as carried in parameters, results and context. -/
inductive Value where
  | null : Value
  | bool (b : Bool) : Value
  | num (n : Int) : Value
  | str (s : String) : Value
deriving DecidableEq, Repr

/-- A parameters mapping: association list from parameter name to value
(a Python `dict`; keys are unique in any dict that the code builds). -/
abbrev Params := List (String × Value)

/-- Execution lifecycle statuses.  The controller itself only ever writes
`init` and `scheduled`; the remaining values exist in the external lifecycle. -/
inductive Status where
  | init | scheduled | running | succeeded | failed
deriving DecidableEq, Repr

/-- Outcomes of a request handler: the deliberate aborts raised by the
controller (`abort(NOT_FOUND/FORBIDDEN/BAD_REQUEST)`) and the unhandled
Python exceptions that escape it (`AttributeError` from reading a missing
`parameters` attribute, and any other uncaught error such as a JSON decode
failure of the context header). -/
inductive Err where
  | notFound | forbidden | badRequest | attributeError | internalError
deriving DecidableEq, Repr

/-- Reasons the storage lookup `ActionExecution.get_by_id` can raise:
a malformed identifier, a missing record, or a storage-level failure.
The controller collapses all of them into NotFound. -/
inductive LookupErr where
  | malformedId | missing | storageError
deriving DecidableEq, Repr

/-- Metadata of one declared runner parameter.  `defaultVal` models the
`'default'` key of the metadata dict: `none` when the key is absent,
`some none` when the key holds Python `None`, `some (some v)` when it
holds the non-null default `v`. -/
structure ParamMeta where
  defaultVal : Option (Option Value)
deriving DecidableEq, Repr

/-- A runner type descriptor: its declared runner parameters
(`runnertype.runner_parameters`), a dict from name to metadata. -/
structure RunnerType where
  runner_parameters : List (String × ParamMeta)
deriving DecidableEq, Repr

/-- An action reference / denormalized action dict as stored on an
execution record (`action__id` queries its `id`, `action__name` its `name`). -/
structure ActionRef where
  name : Option String := none
  id : Option String := none
deriving DecidableEq, Repr

/-- The resolved action descriptor (`action_db`): enabled flag and the
name of its runner type (`action_db.runner_type['name']`). -/
structure ActionDB where
  name : String := ""
  enabled : Bool := true
  runner_type_name : String := ""
deriving DecidableEq, Repr

/-- The incoming `ActionExecutionAPI` request body.  `parameters = none`
models a request object with no `parameters` attribute at all
(`not hasattr(actionexecution, 'parameters')`); likewise
`runner_parameters`. -/
structure ExecRequest where
  action : ActionRef := {}
  parameters : Option Params := none
  runner_parameters : Option Params := none
  context : Option Value := none
  status : Option Status := none
  result : Value := Value.null
  start_timestamp : Nat := 0
deriving DecidableEq, Repr

/-- A persisted execution record (`actionexec_db`). -/
structure ExecRecord where
  id : String := ""
  action : ActionRef := {}
  parameters : Params := []
  context : Option Value := none
  status : Option Status := none
  result : Value := Value.null
  start_timestamp : Nat := 0
deriving DecidableEq, Repr

/-- Modelled from the spec: the document store behind `ActionExecution`.
It holds the persisted records plus a counter from which fresh identifiers
are minted at creation time ("`id`: opaque unique identifier, assigned at
creation"). -/
structure Store where
  records : List ExecRecord := []
  nextId : Nat := 0
deriving DecidableEq, Repr

/-- The external collaborators the controller calls, kept abstract as an
environment: `json.loads` (which can fail on malformed input),
`get_action_by_dict` (resolving an action reference to the descriptor and
the normalized dict, or nothing), `get_runnertype_by_name`, and the
parameter-schema validation `jsonschema.validate` over
`util_schema.get_parameter_schema(action_db)` (true iff validation passes). -/
structure Env where
  jsonLoads : String → Option Value
  getActionByDict : ActionRef → Option (ActionDB × ActionRef)
  getRunnertypeByName : String → RunnerType
  validate : ActionDB → Params → Bool

/-- The quote substitution applied to the `st2-context` header:
`replace("'", "\"")`, replacing every single-quote character (code 39)
with a double quote (code 34). -/
def replaceSingleQuotes (s : String) : String :=
  String.mk (s.data.map (fun c => if c.toNat = 39 then Char.ofNat 34 else c))

/-- Modelled from the spec: `ActionExecutionAPI.to_model`, the
deserialization of an API object into a store record.  Field-preserving;
the identifier is not taken from the client ("assigned at creation"), and
an absent `parameters` attribute deserializes to an empty mapping. -/
def to_model (req : ExecRequest) : ExecRecord :=
  { id := ""
    action := req.action
    parameters := req.parameters.getD []
    context := req.context
    status := req.status
    result := req.result
    start_timestamp := req.start_timestamp }

/-- Modelled from the spec: `ActionExecutionAPI.from_model`, the
serialization of a stored record for the response.  Field-preserving. -/
def from_model (r : ExecRecord) : ExecRecord := r

/-- The identifier minted for the next record persisted into `s`. -/
def Store.freshId (s : Store) : String :=
  "exec" ++ Nat.repr s.nextId

/-- Modelled from the spec: `store.upsert` (`ActionExecution.add_or_update`).
A record without an identifier is assigned a fresh one and appended; a
record carrying an identifier replaces the stored record with that
identifier.  Returns the saved record. -/
def Store.add_or_update (s : Store) (r : ExecRecord) : Store × ExecRecord :=
  if r.id = "" then
    let r' := { r with id := s.freshId }
    ({ records := s.records ++ [r'], nextId := s.nextId + 1 }, r')
  else
    ({ records := s.records.map (fun x => if x.id = r.id then r else x),
       nextId := s.nextId }, r)

/-- Modelled from the spec: `store.get(id)` (`ActionExecution.get_by_id`),
which raises when the record is missing. -/
def Store.get_by_id (s : Store) (id : String) : Except LookupErr ExecRecord :=
  match s.records.find? (fun r => r.id = id) with
  | some r => Except.ok r
  | none => Except.error LookupErr.missing

/-- Ascending comparison on `start_timestamp` (the controller's
`sorted(..., key=lambda x: x.start_timestamp)`). -/
def leStart (a b : ExecRecord) : Bool :=
  decide (a.start_timestamp ≤ b.start_timestamp)

/-- Descending comparison on `start_timestamp` (the storage layer's
`order_by=['-start_timestamp']`). -/
def geStart (a b : ExecRecord) : Bool :=
  decide (b.start_timestamp ≤ a.start_timestamp)

/-- Modelled from the spec: `store.query(filter, order, limit)`
(`ActionExecution.query` / `ActionExecution.get_all` with
`order_by=['-start_timestamp']`): filter, sort descending by
`start_timestamp` at the storage layer, then cap at `limit` when given. -/
def Store.query (s : Store) (f : ExecRecord → Bool) (limit : Option Nat) :
    List ExecRecord :=
  let sorted := (s.records.filter f).mergeSort geStart
  match limit with
  | some n => sorted.take n
  | none => sorted

/-- Modelled from the spec: `transitionStatus(id, newStatus) -> updatedRecord`
(`update_actionexecution_status`), the dedicated status-update path: set the
stored record's status and return the updated record. -/
def update_actionexecution_status (s : Store) (status : Status) (id : String) :
    Store × Option ExecRecord :=
  match s.records.find? (fun r => r.id = id) with
  | none => (s, none)
  | some r =>
    let r' := { r with status := some status }
    ({ s with records := s.records.map (fun x => if x.id = id then r' else x) },
     some r')

/-- The `__get_by_id` helper: any exception raised by the storage lookup is
caught and turned into `abort(NOT_FOUND, ...)`. -/
def getById (res : Except LookupErr ExecRecord) : Except Err ExecRecord :=
  match res with
  | Except.ok r => Except.ok r
  | Except.error _ => Except.error Err.notFound

/-- The context-extraction step of `post`: when the `st2-context` header is
present and non-empty, substitute quotes and parse it with `json.loads`,
attaching the parse as `context`; a parse failure is an uncaught exception. -/
def applyContext (env : Env) (header : Option String) (req : ExecRequest) :
    Except Err ExecRequest :=
  match header with
  | none => Except.ok req
  | some h =>
    if h = "" then Except.ok req
    else
      match env.jsonLoads (replaceSingleQuotes h) with
      | some v => Except.ok { req with context := some v }
      | none => Except.error Err.internalError

/-- The fill-in step of `post`: when the request has no `parameters`
attribute, log a warning (the boolean) and set `runner_parameters` to the
empty mapping — `parameters` itself is left unset. -/
def fillMissingParams (req : ExecRequest) : ExecRequest × Bool :=
  if req.parameters.isNone then
    ({ req with runner_parameters := some [] }, true)
  else (req, false)

/-- The defaulting loop of `post`: for each declared runner parameter whose
key the caller did not supply and whose metadata carries a non-null
`'default'`, insert the default into the parameters dict. -/
def applyRunnerDefaults (rps : List (String × ParamMeta)) (ps : Params) :
    Params :=
  match rps with
  | [] => ps
  | (k, m) :: rest =>
    let ps' :=
      if (ps.lookup k).isNone then
        match m.defaultVal with
        | some (some v) => ps ++ [(k, v)]
        | _ => ps
      else ps
    applyRunnerDefaults rest ps'

/-- The fully-merged request as it stands right before persistence in
`post`: action replaced by the normalized dict, parameters merged with the
runner defaults, status set to `init`. -/
def mergedRequest (env : Env) (req1 : ExecRequest) (a : ActionDB)
    (d : ActionRef) (p : Params) : ExecRequest :=
  { req1 with
      action := d
      parameters := some (applyRunnerDefaults
        (env.getRunnertypeByName a.runner_type_name).runner_parameters p)
      status := some Status.init }

/-- The record as it stands after the creation flow completes: the merged
request deserialized, given its freshly assigned identifier and the final
`scheduled` status. -/
def scheduledRecord (env : Env) (req1 : ExecRequest) (a : ActionDB)
    (d : ActionRef) (p : Params) (sid : String) : ExecRecord :=
  { to_model (mergedRequest env req1 a d p) with
      id := sid
      status := some Status.scheduled }

/-- The `post` handler: stamp `start_timestamp`, extract context, fill in a
missing `parameters` attribute (setting `runner_parameters` instead),
resolve the action (NotFound when unresolvable, Forbidden when disabled),
apply runner defaults — reading the `parameters` attribute, which raises
`AttributeError` when the request had none — validate (BadRequest on
failure), persist with status `init`, then transition to `scheduled`
through the dedicated status-update path and return the updated record.
Deliberate aborts and uncaught exceptions leave the store untouched. -/
def post (env : Env) (header : Option String) (now : Nat) (req0 : ExecRequest)
    (store : Store) : Except Err ExecRecord × Store :=
  let reqT := { req0 with start_timestamp := now }
  match applyContext env header reqT with
  | Except.error e => (Except.error e, store)
  | Except.ok reqC =>
    let reqF := (fillMissingParams reqC).1
    match env.getActionByDict reqF.action with
    | none => (Except.error Err.notFound, store)
    | some (action_db, action_dict) =>
      let reqA := { reqF with action := action_dict }
      if action_db.enabled = false then (Except.error Err.forbidden, store)
      else
        let runnertype := env.getRunnertypeByName action_db.runner_type_name
        match reqA.parameters with
        | none =>
          -- reading `actionexecution.parameters` raises AttributeError,
          -- either inside the defaulting loop or at jsonschema.validate
          (Except.error Err.attributeError, store)
        | some p =>
          let p' := applyRunnerDefaults runnertype.runner_parameters p
          if env.validate action_db p' = false then
            (Except.error Err.badRequest, store)
          else
            let reqD :=
              { reqA with parameters := some p', status := some Status.init }
            let saved := store.add_or_update (to_model reqD)
            let trans := update_actionexecution_status saved.1 Status.scheduled
              saved.2.id
            match trans.2 with
            | some r => (Except.ok (from_model r), trans.1)
            | none => (Except.error Err.internalError, trans.1)

/-- The `put` handler: restamp the incoming request's `start_timestamp`,
fetch the stored record (NotFound when the lookup raises), overwrite its
status and result with the incoming ones whenever they differ — no
transition-legality check — and save. -/
def put (store : Store) (id : String) (now : Nat) (req : ExecRequest) :
    Except Err ExecRecord × Store :=
  let reqT := { req with start_timestamp := now }
  match getById (store.get_by_id id) with
  | Except.error e => (Except.error e, store)
  | Except.ok db =>
    let newdb := to_model reqT
    let db1 := if db.status ≠ newdb.status then { db with status := newdb.status }
      else db
    let db2 := if db1.result ≠ newdb.result then { db1 with result := newdb.result }
      else db1
    let saved := store.add_or_update db2
    (Except.ok (from_model saved.2), saved.1)

/-- The `get_one` handler, parameterized by the storage lookup: any lookup
failure collapses to NotFound via `__get_by_id`; success serializes the
record. -/
def get_one (dbGet : String → Except LookupErr ExecRecord) (id : String) :
    Except Err ExecRecord :=
  match getById (dbGet id) with
  | Except.error e => Except.error e
  | Except.ok db => Except.ok (from_model db)

/-- The `_get_action_executions` helper: dispatch to the storage query with
the `action__id` filter, the `action__name` filter, or no filter, always
ordered descending by `start_timestamp` at the storage layer. -/
def _get_action_executions (store : Store) (action_id : Option String)
    (action_name : Option String) (limit : Option Nat) : List ExecRecord :=
  match action_id with
  | some aid => store.query (fun r => decide (r.action.id = some aid)) limit
  | none =>
    match action_name with
    | some an => store.query (fun r => decide (r.action.name = some an)) limit
    | none => store.query (fun _ => true) limit

/-- The `get_all` handler: query the store (default limit 50), then re-sort
the results ascending by `start_timestamp` with Python's stable `sorted`
before serializing. -/
def get_all (store : Store) (action_id : Option String)
    (action_name : Option String) (limit : Nat := 50) : List ExecRecord :=
  let dbs := _get_action_executions store action_id action_name (some limit)
  (dbs.mergeSort leStart).map from_model

/-- A small concrete environment used by witnesses: one enabled action
named `act` on runner `run` with declared defaults a=1, b=2; parsing
returns the raw string; validation fails exactly when a parameter named
`bad` is supplied. -/
def envW : Env :=
  { jsonLoads := fun s => some (Value.str s)
    getActionByDict := fun a =>
      if a.name = some "act" then
        some ({ name := "act", enabled := true, runner_type_name := "run" },
              { name := some "act", id := some "aid1" })
      else none
    getRunnertypeByName := fun _ =>
      { runner_parameters :=
          [("a", { defaultVal := some (some (Value.num 1)) }),
           ("b", { defaultVal := some (some (Value.num 2)) })] }
    validate := fun _ p => decide (p.lookup "bad" = none) }

/-- A variant of `envW` whose single action is disabled. -/
def envDis : Env :=
  { envW with
    getActionByDict := fun a =>
      if a.name = some "act" then
        some ({ name := "act", enabled := false, runner_type_name := "run" },
              { name := some "act", id := some "aid1" })
      else none }

/-- A concrete stored record used by witnesses. -/
def recW : ExecRecord :=
  { id := "exec0"
    status := some Status.scheduled
    result := Value.num 3
    start_timestamp := 4 }

/-- A concrete one-record store used by witnesses. -/
def storeW : Store := { records := [recW], nextId := 1 }

/-! ## Helper lemmas about association-list lookup -/

theorem lookup_append_of_some (ps l : Params) (k : String) (v : Value)
    (h : ps.lookup k = some v) : (ps ++ l).lookup k = some v := by
  induction ps with
  | nil => simp [List.lookup] at h
  | cons a t ih =>
    obtain ⟨k0, v0⟩ := a
    simp only [List.cons_append, List.lookup_cons] at h ⊢
    cases hkk : (k == k0) with
    | true => simpa [hkk] using h
    | false =>
      simp only [hkk] at h ⊢
      exact ih h

theorem lookup_append_of_none (ps l : Params) (k : String)
    (h : ps.lookup k = none) : (ps ++ l).lookup k = l.lookup k := by
  induction ps with
  | nil => simp
  | cons a t ih =>
    obtain ⟨k0, v0⟩ := a
    simp only [List.cons_append, List.lookup_cons] at h ⊢
    cases hkk : (k == k0) with
    | true => simp [hkk] at h
    | false =>
      simp only [hkk] at h ⊢
      exact ih h

/-! ## Lemmas about the defaulting loop -/

theorem applyRunnerDefaults_lookup_some (rps : List (String × ParamMeta))
    (ps : Params) (k : String) (v : Value) (h : ps.lookup k = some v) :
    (applyRunnerDefaults rps ps).lookup k = some v := by
  induction rps generalizing ps with
  | nil => simpa [applyRunnerDefaults] using h
  | cons a rest ih =>
    obtain ⟨k0, m0⟩ := a
    simp only [applyRunnerDefaults]
    apply ih
    by_cases h0 : (ps.lookup k0).isNone
    · simp only [h0, if_true]
      cases hm0 : m0.defaultVal with
      | none => exact h
      | some d =>
        cases d with
        | none => exact h
        | some v0 => exact lookup_append_of_some ps _ k v h
    · simpa [h0] using h

theorem applyRunnerDefaults_lookup_default (rps : List (String × ParamMeta))
    (ps : Params) (k : String) (m : ParamMeta) (v : Value)
    (hnd : (rps.map Prod.fst).Nodup) (hmem : (k, m) ∈ rps)
    (hd : m.defaultVal = some (some v)) (hn : ps.lookup k = none) :
    (applyRunnerDefaults rps ps).lookup k = some v := by
  induction rps generalizing ps with
  | nil => simp at hmem
  | cons a rest ih =>
    obtain ⟨k0, m0⟩ := a
    simp only [List.map_cons, List.nodup_cons] at hnd
    rcases List.mem_cons.mp hmem with heq | htail
    · cases heq
      simp only [applyRunnerDefaults, hn, Option.isNone_none, if_true, hd]
      apply applyRunnerDefaults_lookup_some
      rw [lookup_append_of_none ps _ k hn]
      simp [List.lookup_cons]
    · have hkne : (k == k0) = false := by
        apply beq_false_of_ne
        intro hkk
        exact hnd.1 (hkk ▸ List.mem_map.mpr ⟨(k, m), htail, rfl⟩)
      simp only [applyRunnerDefaults]
      apply ih _ hnd.2 htail
      by_cases h0 : (ps.lookup k0).isNone
      · simp only [h0, if_true]
        cases hm0 : m0.defaultVal with
        | none => exact hn
        | some d =>
          cases d with
          | none => exact hn
          | some v0 =>
            rw [lookup_append_of_none ps _ k hn]
            simp [List.lookup_cons, hkne]
      · simpa [h0] using hn

/-! ## Helper lemmas about the handler building blocks -/

theorem fillMissingParams_action (req : ExecRequest) :
    (fillMissingParams req).1.action = req.action := by
  simp only [fillMissingParams]
  split <;> rfl

theorem fillMissingParams_of_some (req : ExecRequest) (p : Params)
    (h : req.parameters = some p) : fillMissingParams req = (req, false) := by
  simp [fillMissingParams, h]

theorem from_model_eq_id : from_model = id := rfl

theorem leStart_trans (a b c : ExecRecord) (hab : leStart a b = true)
    (hbc : leStart b c = true) : leStart a c = true := by
  simp only [leStart, decide_eq_true_eq] at hab hbc ⊢
  omega

theorem leStart_total (a b : ExecRecord) : (leStart a b || leStart b a) = true := by
  simp only [leStart, Bool.or_eq_true, decide_eq_true_eq]
  omega

theorem Store.freshId_ne_empty (s : Store) : s.freshId ≠ "" := by
  intro h
  have hlen := congrArg String.length h
  rw [Store.freshId, String.length_append] at hlen
  have h4 : ("exec" : String).length = 4 := rfl
  have h0 : ("" : String).length = 0 := rfl
  rw [h4, h0] at hlen
  omega

/-! ## Claim theorems -/

/-- C1: in `post`, every runner parameter declared with a non-null default
that the caller did not supply is injected into `parameters` (before
validation and persistence), every caller-supplied value is kept
unchanged, and with runner defaults a=1, b=2 and caller parameters a=5 the
merged parameters are exactly a=5, b=2. -/
theorem post_defaulting_injects_runner_defaults
    (rps : List (String × ParamMeta)) (ps : Params)
    (hnd : (rps.map Prod.fst).Nodup) :
    (∀ k v, ps.lookup k = some v → (applyRunnerDefaults rps ps).lookup k = some v)
    ∧ (∀ k m v, (k, m) ∈ rps → m.defaultVal = some (some v) →
        ps.lookup k = none → (applyRunnerDefaults rps ps).lookup k = some v)
    ∧ applyRunnerDefaults
        [("a", ⟨some (some (Value.num 1))⟩), ("b", ⟨some (some (Value.num 2))⟩)]
        [("a", Value.num 5)] = [("a", Value.num 5), ("b", Value.num 2)] := by
  refine ⟨fun k v h => applyRunnerDefaults_lookup_some rps ps k v h,
          fun k m v hmem hd hn =>
            applyRunnerDefaults_lookup_default rps ps k m v hnd hmem hd hn,
          by decide⟩

/-- Witness for C1 at the concrete runner defaults a=1, b=2 and the
caller-supplied parameters a=5. -/
theorem post_defaulting_injects_runner_defaults_witness :
    (([("a", ParamMeta.mk (some (some (Value.num 1)))),
       ("b", ParamMeta.mk (some (some (Value.num 2)))) ].map Prod.fst).Nodup)
    ∧ applyRunnerDefaults
        [("a", ⟨some (some (Value.num 1))⟩), ("b", ⟨some (some (Value.num 2))⟩)]
        [("a", Value.num 5)] = [("a", Value.num 5), ("b", Value.num 2)] :=
  ⟨by decide,
   (post_defaulting_injects_runner_defaults
      [("a", ⟨some (some (Value.num 1))⟩), ("b", ⟨some (some (Value.num 2))⟩)]
      [("a", Value.num 5)] (by decide)).2.2⟩

/-- C3: every failing creation request persists nothing — an unresolvable
action reference aborts with NotFound, a disabled action aborts with
Forbidden, failed parameter validation aborts with BadRequest, and in each
case `post` returns the store untouched. -/
theorem post_failure_persists_nothing (env : Env) (header : Option String)
    (now : Nat) (req : ExecRequest) (store : Store) (req1 : ExecRequest)
    (hctx : applyContext env header { req with start_timestamp := now } =
      Except.ok req1) :
    (env.getActionByDict req1.action = none →
      post env header now req store = (Except.error Err.notFound, store))
    ∧ (∀ a d, env.getActionByDict req1.action = some (a, d) →
        a.enabled = false →
        post env header now req store = (Except.error Err.forbidden, store))
    ∧ (∀ a d p, env.getActionByDict req1.action = some (a, d) →
        a.enabled = true → req1.parameters = some p →
        env.validate a (applyRunnerDefaults
          (env.getRunnertypeByName a.runner_type_name).runner_parameters p) =
          false →
        post env header now req store = (Except.error Err.badRequest, store)) := by
  refine ⟨fun hres => ?_, fun a d hres hdis => ?_,
          fun a d p hres hen hp hval => ?_⟩
  · simp [post, hctx, fillMissingParams_action, hres]
  · simp [post, hctx, fillMissingParams_action, hres, hdis]
  · simp [post, hctx, fillMissingParams_of_some req1 p hp, hres, hen, hp, hval]

/-- Witness for C3: a request referencing the unknown action `nope`
aborts with NotFound and the empty store is untouched. -/
theorem post_failure_persists_nothing_witness :
    (applyContext envW none
        { ({ action := { name := some "nope" } } : ExecRequest) with
          start_timestamp := 3 } =
      Except.ok { action := { name := some "nope" }, start_timestamp := 3 })
    ∧ (envW.getActionByDict
        ({ action := { name := some "nope" }, start_timestamp := 3 } :
          ExecRequest).action = none)
    ∧ post envW none 3 { action := { name := some "nope" } } {} =
        (Except.error Err.notFound, {}) :=
  ⟨rfl, by decide,
   (post_failure_persists_nothing envW none 3
      { action := { name := some "nope" } } {}
      { action := { name := some "nope" }, start_timestamp := 3 } rfl).1
     (by decide)⟩

/-- C6: `get_one` fails with NotFound whenever the storage lookup raises,
whatever the reason (malformed id, missing record, storage error), and
returns the serialized stored record when the lookup succeeds. -/
theorem get_one_collapses_lookup_failures
    (dbGet : String → Except LookupErr ExecRecord) (id : String) :
    (∀ e, dbGet id = Except.error e →
      get_one dbGet id = Except.error Err.notFound)
    ∧ (∀ r, dbGet id = Except.ok r →
      get_one dbGet id = Except.ok (from_model r)) := by
  constructor
  · intro e he
    simp [get_one, getById, he]
  · intro r hr
    simp [get_one, getById, hr]

/-- Witness for C6: a lookup raising a storage error collapses to
NotFound. -/
theorem get_one_collapses_lookup_failures_witness :
    get_one (fun _ => Except.error LookupErr.storageError) "abc" =
      Except.error Err.notFound :=
  (get_one_collapses_lookup_failures
    (fun _ => Except.error LookupErr.storageError) "abc").1
    LookupErr.storageError rfl

/-- C7: when the creation request has no `parameters` attribute at all,
the fill-in step of `post` logs a warning (the boolean) and sets
`runner_parameters` to the empty mapping, and does not set `parameters`. -/
theorem post_missing_parameters_sets_runner_parameters (req : ExecRequest)
    (h : req.parameters = none) :
    fillMissingParams req = ({ req with runner_parameters := some [] }, true)
    ∧ (fillMissingParams req).1.parameters = none := by
  constructor
  · simp [fillMissingParams, h]
  · simp [fillMissingParams, h]

/-- Witness for C7 on a concrete request without a `parameters`
attribute. -/
theorem post_missing_parameters_sets_runner_parameters_witness :
    (({ action := { name := some "act" } } : ExecRequest).parameters = none)
    ∧ fillMissingParams { action := { name := some "act" } } =
        ({ action := { name := some "act" }, runner_parameters := some [] },
         true) :=
  ⟨rfl,
   (post_missing_parameters_sets_runner_parameters
      { action := { name := some "act" } } rfl).1⟩

/-- C8: a creation request lacking the `parameters` attribute that
resolves to an enabled action whose runner type declares at least one
runner parameter makes `post` fail with the unhandled AttributeError from
reading the missing attribute — not with NotFound, Forbidden or
BadRequest, and never successfully — even though the fill-in step warned
and continued. -/
theorem post_missing_parameters_attribute_error (env : Env)
    (header : Option String) (now : Nat) (req : ExecRequest) (store : Store)
    (req1 : ExecRequest) (a : ActionDB) (d : ActionRef) (k : String)
    (m : ParamMeta) (rest : List (String × ParamMeta))
    (hctx : applyContext env header { req with start_timestamp := now } =
      Except.ok req1)
    (hp : req1.parameters = none)
    (hres : env.getActionByDict req1.action = some (a, d))
    (hen : a.enabled = true)
    (hrps : (env.getRunnertypeByName a.runner_type_name).runner_parameters =
      (k, m) :: rest) :
    post env header now req store = (Except.error Err.attributeError, store)
    ∧ (fillMissingParams req1).2 = true := by
  constructor
  · simp [post, hctx, fillMissingParams, hp, hres, hen]
  · simp [fillMissingParams, hp]

/-- Witness for C8: a request for the enabled action `act` (whose runner
declares parameters a and b) with no `parameters` attribute ends in the
AttributeError outcome. -/
theorem post_missing_parameters_attribute_error_witness :
    (applyContext envW none
        { ({ action := { name := some "act" } } : ExecRequest) with
          start_timestamp := 3 } =
      Except.ok { action := { name := some "act" }, start_timestamp := 3 })
    ∧ post envW none 3 { action := { name := some "act" } } {} =
        (Except.error Err.attributeError, {}) :=
  ⟨rfl,
   (post_missing_parameters_attribute_error envW none 3
      { action := { name := some "act" } } {}
      { action := { name := some "act" }, start_timestamp := 3 }
      { name := "act", enabled := true, runner_type_name := "run" }
      { name := some "act", id := some "aid1" }
      "a" { defaultVal := some (some (Value.num 1)) }
      [("b", { defaultVal := some (some (Value.num 2)) })]
      rfl rfl (by decide) rfl (by decide)).1⟩

/-- C10: in `post`, a present non-empty `st2-context` header has every
single-quote character replaced by a double quote, is parsed as JSON, and
the parse is attached as the record's `context`; an absent or empty header
leaves `context` unset.  The last conjunct pins the substitution on a
two-character string whose first character is a single quote (code 39). -/
theorem post_context_header_parsing (env : Env) (req : ExecRequest)
    (h : String) (v : Value) :
    applyContext env none req = Except.ok req
    ∧ applyContext env (some "") req = Except.ok req
    ∧ (h ≠ "" → env.jsonLoads (replaceSingleQuotes h) = some v →
        applyContext env (some h) req =
          Except.ok { req with context := some v })
    ∧ replaceSingleQuotes (String.mk [Char.ofNat 39, Char.ofNat 97]) =
        String.mk [Char.ofNat 34, Char.ofNat 97] := by
  refine ⟨rfl, by simp [applyContext], fun hne hp => ?_, by decide⟩
  simp [applyContext, hne, hp]

/-- Witness for C10 with the header string `q` under `envW`. -/
theorem post_context_header_parsing_witness :
    ("q" : String) ≠ ""
    ∧ envW.jsonLoads (replaceSingleQuotes "q") = some (Value.str "q")
    ∧ applyContext envW (some "q") {} =
        Except.ok { ({} : ExecRequest) with context := some (Value.str "q") } :=
  ⟨by decide, by decide,
   (post_context_header_parsing envW {} "q" (Value.str "q")).2.2.1 (by decide)
     (by decide)⟩

/-- C2: every creation request that resolves to an enabled action and
passes parameter validation is persisted first with status `init`, then
transitioned to `scheduled` through the dedicated status-update path, and
the returned record has status `scheduled` and a non-empty id. -/
theorem post_success_returns_scheduled_record (env : Env)
    (header : Option String) (now : Nat) (req : ExecRequest) (store : Store)
    (req1 : ExecRequest) (a : ActionDB) (d : ActionRef) (p : Params)
    (hctx : applyContext env header { req with start_timestamp := now } =
      Except.ok req1)
    (hp : req1.parameters = some p)
    (hres : env.getActionByDict req1.action = some (a, d))
    (hen : a.enabled = true)
    (hval : env.validate a (applyRunnerDefaults
      (env.getRunnertypeByName a.runner_type_name).runner_parameters p) = true)
    (hfresh : store.records.find? (fun x => x.id = store.freshId) = none) :
    ∃ api store2,
      post env header now req store = (Except.ok api, store2)
      ∧ api.status = some Status.scheduled
      ∧ api.id ≠ ""
      ∧ (store.add_or_update (to_model (mergedRequest env req1 a d p))).2.status
          = some Status.init
      ∧ store2 = (update_actionexecution_status
          (store.add_or_update (to_model (mergedRequest env req1 a d p))).1
          Status.scheduled
          (store.add_or_update (to_model (mergedRequest env req1 a d p))).2.id).1 := by
  have hpost : post env header now req store =
      (Except.ok (scheduledRecord env req1 a d p store.freshId),
       { records := store.records.map (fun x =>
             if x.id = store.freshId then
               scheduledRecord env req1 a d p store.freshId
             else x) ++
           [scheduledRecord env req1 a d p store.freshId],
         nextId := store.nextId + 1 }) := by
    simp [post, hctx, fillMissingParams_of_some req1 p hp, hres, hen, hp,
      hval, Store.add_or_update, to_model, update_actionexecution_status,
      List.find?_append, hfresh, from_model, mergedRequest, scheduledRecord]
  refine ⟨scheduledRecord env req1 a d p store.freshId, _, hpost, rfl,
    Store.freshId_ne_empty store, ?_, ?_⟩
  · simp [Store.add_or_update, to_model, mergedRequest]
  · simp [Store.add_or_update, to_model, update_actionexecution_status,
      List.find?_append, hfresh, mergedRequest, scheduledRecord]

/-- The creation request used by the C2 witness: the enabled action `act`
with caller parameter a=5. -/
def reqW0 : ExecRequest :=
  { action := { name := some "act" }
    parameters := some [("a", Value.num 5)] }

/-- The C2 witness request after the `start_timestamp` stamping and the
(no-op) context step. -/
def reqS : ExecRequest := { reqW0 with start_timestamp := 7 }

/-- The resolved descriptor of the witness action `act`. -/
def actW : ActionDB := { name := "act", enabled := true, runner_type_name := "run" }

/-- The normalized dict of the witness action `act`. -/
def dictW : ActionRef := { name := some "act", id := some "aid1" }

/-- Witness for C2: posting the witness request to the empty store under
`envW`. -/
theorem post_success_returns_scheduled_record_witness :
    ∃ api store2,
      post envW none 7 reqW0 {} = (Except.ok api, store2)
      ∧ api.status = some Status.scheduled
      ∧ api.id ≠ ""
      ∧ (Store.add_or_update {} (to_model (mergedRequest envW reqS actW dictW
          [("a", Value.num 5)]))).2.status = some Status.init
      ∧ store2 = (update_actionexecution_status
          (Store.add_or_update {} (to_model (mergedRequest envW reqS actW dictW
            [("a", Value.num 5)]))).1
          Status.scheduled
          (Store.add_or_update {} (to_model (mergedRequest envW reqS actW dictW
            [("a", Value.num 5)]))).2.id).1 :=
  post_success_returns_scheduled_record envW none 7 reqW0 {} reqS actW dictW
    [("a", Value.num 5)] rfl rfl (by decide) rfl (by decide) rfl

/-- C4: `put` on a nonexistent id fails with NotFound leaving the store
untouched; on an existing record it overwrites the stored `status` and
`result` with the incoming ones whenever they differ — with no
transition-legality check — leaves every other stored field unchanged (in
particular the `start_timestamp` restamped on the incoming request is
never written), and an incoming `status` or `result` equal to the stored
one leaves that field untouched. -/
theorem put_overwrites_status_result_only (store : Store) (id : String)
    (now : Nat) (req : ExecRequest) :
    (∀ e, store.get_by_id id = Except.error e →
      put store id now req = (Except.error Err.notFound, store))
    ∧ (∀ r, store.get_by_id id = Except.ok r → r.id ≠ "" →
        ∃ r', put store id now req =
            (Except.ok r',
             { records := store.records.map
                 (fun x => if x.id = r.id then r' else x),
               nextId := store.nextId })
          ∧ r'.status = req.status
          ∧ r'.result = req.result
          ∧ r'.id = r.id
          ∧ r'.action = r.action
          ∧ r'.parameters = r.parameters
          ∧ r'.context = r.context
          ∧ r'.start_timestamp = r.start_timestamp
          ∧ (req.status = r.status → r'.status = r.status)
          ∧ (req.result = r.result → r'.result = r.result)) := by
  constructor
  · intro e he
    simp [put, getById, he]
  · intro r hr hid
    refine ⟨{ r with status := req.status, result := req.result }, ?_, rfl, rfl,
      rfl, rfl, rfl, rfl, rfl, fun h => by simp [h], fun h => by simp [h]⟩
    by_cases h1 : r.status = req.status <;> by_cases h2 : r.result = req.result
    · simp [put, getById, hr, to_model, Store.add_or_update, from_model, hid,
        ← h1, ← h2]
    · simp [put, getById, hr, to_model, Store.add_or_update, from_model, hid,
        ← h1, h2]
    · simp [put, getById, hr, to_model, Store.add_or_update, from_model, hid,
        h1, ← h2]
    · simp [put, getById, hr, to_model, Store.add_or_update, from_model, hid,
        h1, h2]

/-- Witness for C4: updating the stored record `exec0` with a new status
and the same result. -/
theorem put_overwrites_status_result_only_witness :
    storeW.get_by_id "exec0" = Except.ok recW ∧ recW.id ≠ ""
    ∧ ∃ r', put storeW "exec0" 99 { status := some Status.failed } =
          (Except.ok r',
           { records := storeW.records.map
               (fun x => if x.id = recW.id then r' else x),
             nextId := storeW.nextId })
        ∧ r'.status = ({ status := some Status.failed } : ExecRequest).status
        ∧ r'.result = ({ status := some Status.failed } : ExecRequest).result
        ∧ r'.id = recW.id
        ∧ r'.action = recW.action
        ∧ r'.parameters = recW.parameters
        ∧ r'.context = recW.context
        ∧ r'.start_timestamp = recW.start_timestamp
        ∧ (({ status := some Status.failed } : ExecRequest).status = recW.status
            → r'.status = recW.status)
        ∧ (({ status := some Status.failed } : ExecRequest).result = recW.result
            → r'.result = recW.result) :=
  ⟨rfl, by decide,
   (put_overwrites_status_result_only storeW "exec0" 99
      { status := some Status.failed }).2 recW rfl (by decide)⟩

/-- C5: for every store state and every filter combination, the list
returned by `get_all` is sorted ascending by `start_timestamp` even though
the storage-level query orders descending; with no `action_id` or
`action_name` filter (and a limit covering the store) it returns all
stored records. -/
theorem get_all_sorted_ascending (store : Store)
    (action_id action_name : Option String) (limit : Nat) :
    (get_all store action_id action_name limit).Pairwise
      (fun a b => a.start_timestamp ≤ b.start_timestamp)
    ∧ (action_id = none → action_name = none →
        store.records.length ≤ limit →
        (get_all store action_id action_name limit).Perm store.records) := by
  constructor
  · have h := List.sorted_mergeSort leStart_trans leStart_total
      (_get_action_executions store action_id action_name (some limit))
    have hg : get_all store action_id action_name limit =
        (_get_action_executions store action_id action_name
          (some limit)).mergeSort leStart := by
      simp [get_all, from_model_eq_id]
    rw [hg]
    exact h.imp (fun hab => by simpa [leStart] using hab)
  · intro h1 h2 h3
    subst h1
    subst h2
    have hq : store.query (fun _ => true) (some limit) =
        store.records.mergeSort geStart := by
      simp only [Store.query, List.filter_true]
      apply List.take_of_length_le
      rw [List.length_mergeSort]
      exact h3
    have hg : get_all store none none limit =
        (store.records.mergeSort geStart).mergeSort leStart := by
      simp [get_all, _get_action_executions, from_model_eq_id, hq]
    rw [hg]
    exact (List.mergeSort_perm _ _).trans (List.mergeSort_perm _ _)

/-- Witness for C5: listing the one-record store with no filters and the
default limit returns all its records. -/
theorem get_all_sorted_ascending_witness :
    ((none : Option String) = none) ∧ ((none : Option String) = none)
    ∧ storeW.records.length ≤ 50
    ∧ (get_all storeW none none 50).Perm storeW.records :=
  ⟨rfl, rfl, by decide,
   (get_all_sorted_ascending storeW none none 50).2 rfl rfl (by decide)⟩

/-- C9: `get_all` with `limit=N` returns at most N records, and calling it
without a limit is the same as calling it with the default limit 50. -/
theorem get_all_limit_cap_and_default :
    (∀ (store : Store) (action_id action_name : Option String) (n : Nat),
      (get_all store action_id action_name n).length ≤ n)
    ∧ ∀ (store : Store) (action_id action_name : Option String),
      get_all store action_id action_name = get_all store action_id action_name 50 := by
  constructor
  · intro store aid an n
    have hq : ∀ f, (store.query f (some n)).length ≤ n := by
      intro f
      simp only [Store.query, List.length_take]
      exact inf_le_left
    have hlen : (get_all store aid an n).length =
        (_get_action_executions store aid an (some n)).length := by
      simp [get_all, List.length_map, List.length_mergeSort]
    rw [hlen]
    cases aid with
    | some a => simpa [_get_action_executions] using hq _
    | none =>
      cases an with
      | some b => simpa [_get_action_executions] using hq _
      | none => simpa [_get_action_executions] using hq _
  · intro store aid an
    rfl

end St2
